import Mathlib

/-!
Verification of the multi-source schedule aggregation logic of the
sports team management web dashboard.

The aggregation is implemented inline in three pages:
  * `src/app/player/schedules/page.tsx` — `loadData` fetches practice,
    meeting and game rows for the player's team, tags each row with its
    type and source table, concatenates and sorts by `start_time`.
  * `src/app/coach/schedules/page.tsx` — `fetchAllSchedules` does the same
    for the coach's team (with different error handling and a different
    game query).
  * `src/app/player/teammates/page.tsx` — `fetchPlayerData` fetches the
    upcoming events (limit 10 per source), merges, sorts, and keeps the
    first 5.

Rows coming back from the database are JavaScript objects whose fields may
be absent; we model them as a structure of `Option` fields.  `new
Date(s).getTime()` is a number or NaN (for a missing or unparseable
`start_time`); the full model of the parse is a function
`k : Option String → Option Int` with `none` standing for NaN.  For
`Array.prototype.sort((a, b) => getTime(a) - getTime(b))`, ECMAScript's
SortCompare coerces a NaN comparator result to +0; when no NaN is involved
the comparator is a consistent comparison function and ES2019 guarantees a
stable sort by the key, which we model by the stable insertion sort
`sortByKey` over a total key `k : Option String → Int`.  When a NaN key is
involved the comparator is not consistent and the resulting order is
implementation-defined; `sortByCmp` with the coerced comparator
`jsCompare` is one conforming implementation (which, like V8 on small
arrays, leaves such inputs essentially in place), and the two models
coincide whenever every key is a number (`sortByCmp_some_eq_sortByKey`).
A query result `{ data, error }` from the database client is modelled as
`Except String (List RawRow)`: `.ok rows` when `data` is non-null,
`.error e` when the query failed (`data` null, `error` set).
-/

/-- A raw row as returned by the database client.  JavaScript objects have
no fixed schema, so every field a page may read is an `Option`: `none`
models an absent (or null) field. -/
structure RawRow where
  id : Option String
  title : Option String
  description : Option String
  start_time : Option String
  end_time : Option String
  location : Option String
  team_id : Option String
  team1_id : Option String
  team2_id : Option String
  meeting_type : Option String
  schedule_type : Option String
deriving DecidableEq, Repr

/-- The row with every field absent. -/
def emptyRow : RawRow :=
  { id := none, title := none, description := none, start_time := none,
    end_time := none, location := none, team_id := none, team1_id := none,
    team2_id := none, meeting_type := none, schedule_type := none }

/-- The `type` tag given to a combined schedule entry:
`'practice' | 'meeting' | 'game'`. -/
inductive SourceTag where
  | practice
  | meeting
  | game
deriving DecidableEq, Repr

/-- The `Schedule` shape built by the player pages: the raw row spread into
a new object plus the `type` tag (and, on the player schedules page, a
`source_table` tag).  The teammates page omits `source_table`, hence the
`Option`. -/
structure Schedule where
  id : Option String
  title : Option String
  description : Option String
  start_time : Option String
  end_time : Option String
  location : Option String
  team_id : Option String
  team1_id : Option String
  team2_id : Option String
  meeting_type : Option String
  schedule_type : Option String
  type : SourceTag
  source_table : Option String
deriving DecidableEq, Repr

/-- Stable insertion of `x` into `l`, keeping `x` after every element `y`
with `key y ≤ key x` is false, i.e. `x` is placed before the first element
it does not compare greater-or-equal to.  This realizes the stable order
produced by `Array.prototype.sort` with comparator `key a - key b`. -/
def insKey (key : α → Int) (x : α) : List α → List α
  | [] => [x]
  | y :: ys => if key x ≤ key y then x :: y :: ys else y :: insKey key x ys

/-- Stable sort by an integer key: the model of
`.sort((a, b) => key a - key b)` for the case of a total (never-NaN) key,
where the comparator is consistent and ES2019 fixes the stable sorted
result.  The full model including NaN keys is `sortByCmp` with `jsCompare`
below; the two agree on total keys (`sortByCmp_some_eq_sortByKey`). -/
def sortByKey (key : α → Int) : List α → List α
  | [] => []
  | x :: xs => insKey key x (sortByKey key xs)

theorem insKey_perm (key : α → Int) (x : α) (l : List α) :
    List.Perm (insKey key x l) (x :: l) := by
  induction l with
  | nil => exact List.Perm.refl _
  | cons y ys ih =>
    by_cases h : key x ≤ key y
    · simp only [insKey, if_pos h]
      exact List.Perm.refl _
    · simp only [insKey, if_neg h]
      exact (ih.cons y).trans (List.Perm.swap x y ys)

theorem sortByKey_perm (key : α → Int) (l : List α) :
    List.Perm (sortByKey key l) l := by
  induction l with
  | nil => exact List.Perm.refl _
  | cons x xs ih => exact (insKey_perm key x (sortByKey key xs)).trans (ih.cons x)

theorem pairwise_insKey (key : α → Int) (x : α) (l : List α)
    (h : l.Pairwise (fun a b => key a ≤ key b)) :
    (insKey key x l).Pairwise (fun a b => key a ≤ key b) := by
  induction l with
  | nil => simp [insKey]
  | cons y ys ih =>
    rcases List.pairwise_cons.mp h with ⟨hy, hys⟩
    by_cases hxy : key x ≤ key y
    · simp only [insKey, if_pos hxy]
      refine List.pairwise_cons.mpr ⟨?_, h⟩
      intro b hb
      rcases List.mem_cons.mp hb with rfl | hb
      · exact hxy
      · exact le_trans hxy (hy b hb)
    · simp only [insKey, if_neg hxy]
      refine List.pairwise_cons.mpr ⟨?_, ih hys⟩
      intro b hb
      have hmem : b ∈ x :: ys := (insKey_perm key x ys).mem_iff.mp hb
      rcases List.mem_cons.mp hmem with rfl | hbm
      · omega
      · exact hy b hbm

theorem sortByKey_pairwise (key : α → Int) (l : List α) :
    (sortByKey key l).Pairwise (fun a b => key a ≤ key b) := by
  induction l with
  | nil => simp [sortByKey]
  | cons x xs ih => exact pairwise_insKey key x _ ih

theorem filter_insKey_eq (key : α → Int) (t : Int) (x : α) (l : List α)
    (hx : key x = t) :
    (insKey key x l).filter (fun y => decide (key y = t)) =
      x :: l.filter (fun y => decide (key y = t)) := by
  induction l with
  | nil => simp [insKey, hx]
  | cons y ys ih =>
    by_cases hxy : key x ≤ key y
    · simp only [insKey, if_pos hxy]
      simp [List.filter_cons, hx]
    · have hy : ¬ key y = t := by omega
      simp only [insKey, if_neg hxy]
      simp [List.filter_cons, hy, ih]

theorem filter_insKey_ne (key : α → Int) (t : Int) (x : α) (l : List α)
    (hx : ¬ key x = t) :
    (insKey key x l).filter (fun y => decide (key y = t)) =
      l.filter (fun y => decide (key y = t)) := by
  induction l with
  | nil => simp [insKey, hx]
  | cons y ys ih =>
    by_cases hxy : key x ≤ key y
    · simp only [insKey, if_pos hxy]
      simp [List.filter_cons, hx]
    · simp only [insKey, if_neg hxy]
      simp only [List.filter_cons, ih]

/-- Stability of the sort: the subsequence of elements with any fixed key
value is unchanged by sorting. -/
theorem sortByKey_filter_key (key : α → Int) (t : Int) (l : List α) :
    (sortByKey key l).filter (fun y => decide (key y = t)) =
      l.filter (fun y => decide (key y = t)) := by
  induction l with
  | nil => rfl
  | cons x xs ih =>
    by_cases hx : key x = t
    · rw [sortByKey, filter_insKey_eq key t x _ hx, ih, List.filter_cons]
      simp [hx]
    · rw [sortByKey, filter_insKey_ne key t x _ hx, ih, List.filter_cons]
      simp [hx]

/-- The comparator `(a, b) => getTime(a) - getTime(b)` as ECMAScript's
SortCompare sees it, with `none` standing for a NaN timestamp: NaN
arithmetic yields NaN, and SortCompare coerces a NaN comparator result to
+0, so any comparison involving a NaN key returns 0. -/
def jsCompare : Option Int → Option Int → Int
  | some a, some b => a - b
  | _, _ => 0

/-- Comparator-driven stable insertion (`x` is placed before the first
element it does not compare strictly greater than). -/
def insCmp (c : α → α → Int) (x : α) : List α → List α
  | [] => [x]
  | y :: ys => if c x y ≤ 0 then x :: y :: ys else y :: insCmp c x ys

/-- `Array.prototype.sort` with an arbitrary comparator.  When the
comparator is a consistent comparison function this is the stable sort
ES2019 mandates; when it is not (a NaN-keyed row under `jsCompare`), the
order is implementation-defined and this insertion sort is one conforming
implementation — which, like V8 on small arrays, can leave such inputs in
their original, unsorted order. -/
def sortByCmp (c : α → α → Int) : List α → List α
  | [] => []
  | x :: xs => insCmp c x (sortByCmp c xs)

theorem insCmp_some_eq_insKey (key : α → Int) (x : α) (l : List α) :
    insCmp (fun a b => jsCompare (some (key a)) (some (key b))) x l =
      insKey key x l := by
  induction l with
  | nil => rfl
  | cons y ys ih =>
    simp only [insCmp, insKey]
    rw [ih]
    simp only [jsCompare, sub_nonpos]

/-- On a total (never-NaN) key the comparator is consistent and the full
sort model coincides with the stable sort by the key. -/
theorem sortByCmp_some_eq_sortByKey (key : α → Int) (l : List α) :
    sortByCmp (fun a b => jsCompare (some (key a)) (some (key b))) l =
      sortByKey key l := by
  induction l with
  | nil => rfl
  | cons x xs ih =>
    simp only [sortByCmp, sortByKey, ih, insCmp_some_eq_insKey]

/-! ### Player schedules page (`src/app/player/schedules/page.tsx`) -/

/-- Timestamp parsing key: `new Date(s.start_time).getTime()` for a
parse function `k`.  (`k` also receives `none` for an absent field, as
`new Date(undefined)` is still a value in JavaScript.) -/
def scheduleKey (k : Option String → Int) (s : Schedule) : Int :=
  k s.start_time

/-- `{...schedule, type: 'practice', source_table: 'practice_schedules'}`
(lines 124-130 of the player schedules page). -/
def tagPractice (r : RawRow) : Schedule :=
  { id := r.id, title := r.title, description := r.description,
    start_time := r.start_time, end_time := r.end_time, location := r.location,
    team_id := r.team_id, team1_id := r.team1_id, team2_id := r.team2_id,
    meeting_type := r.meeting_type, schedule_type := r.schedule_type,
    type := SourceTag.practice, source_table := some "practice_schedules" }

/-- `{...schedule, type: 'meeting', source_table: 'meeting_schedules'}`
(lines 135-141). -/
def tagMeeting (r : RawRow) : Schedule :=
  { id := r.id, title := r.title, description := r.description,
    start_time := r.start_time, end_time := r.end_time, location := r.location,
    team_id := r.team_id, team1_id := r.team1_id, team2_id := r.team2_id,
    meeting_type := r.meeting_type, schedule_type := r.schedule_type,
    type := SourceTag.meeting, source_table := some "meeting_schedules" }

/-- `{...schedule, type: 'game', source_table: 'schedules',
team_id: currentTeam.id}` (lines 146-153): note the extra
`team_id := currentTeam.id` override, absent from the raw row. -/
def tagGame (teamId : String) (r : RawRow) : Schedule :=
  { id := r.id, title := r.title, description := r.description,
    start_time := r.start_time, end_time := r.end_time, location := r.location,
    team_id := some teamId, team1_id := r.team1_id, team2_id := r.team2_id,
    meeting_type := r.meeting_type, schedule_type := r.schedule_type,
    type := SourceTag.game, source_table := some "schedules" }

/-- The schedule-combining portion of `loadData` (player schedules page,
lines 88-161): given the three query results (`.ok rows` when `data` is
non-null, `.error e` when the query failed and `data` is null), each error
is only `console.error`-logged; the `if (data)` guards skip a null source;
the three tagged row lists are pushed in order practice, meeting, game and
sorted by `new Date(start_time).getTime()` ascending. -/
def playerLoadSchedules (k : Option String → Int) (teamId : String)
    (pres mres gres : Except String (List RawRow)) : List Schedule :=
  let practiceTagged :=
    match pres with
    | Except.ok l => l.map tagPractice
    | Except.error _ => []
  let meetingTagged :=
    match mres with
    | Except.ok l => l.map tagMeeting
    | Except.error _ => []
  let gameTagged :=
    match gres with
    | Except.ok l => l.map (tagGame teamId)
    | Except.error _ => []
  sortByKey (scheduleKey k) (practiceTagged ++ meetingTagged ++ gameTagged)

/-- The schedule-combining portion of `loadData` under the full timestamp
model, in which the parse function may yield NaN (`none`) for a missing or
unparseable `start_time`: the sort runs the ECMAScript-coerced comparator
`jsCompare`.  Under a parse function that always yields a number this
coincides with `playerLoadSchedules` (first conjunct of
`C2_sorted_when_all_parse`). -/
def playerLoadSchedulesJS (k : Option String → Option Int) (teamId : String)
    (pres mres gres : Except String (List RawRow)) : List Schedule :=
  let practiceTagged :=
    match pres with
    | Except.ok l => l.map tagPractice
    | Except.error _ => []
  let meetingTagged :=
    match mres with
    | Except.ok l => l.map tagMeeting
    | Except.error _ => []
  let gameTagged :=
    match gres with
    | Except.ok l => l.map (tagGame teamId)
    | Except.error _ => []
  sortByCmp (fun a b => jsCompare (k a.start_time) (k b.start_time))
    (practiceTagged ++ meetingTagged ++ gameTagged)

/-- The filter value of the player page:
`'all' | 'practice' | 'meeting' | 'game'`. -/
inductive ScheduleFilter where
  | all
  | practice
  | meeting
  | game
deriving DecidableEq, Repr

/-- `schedule.type === activeFilter` for a non-`all` filter value. -/
def filterMatches (f : ScheduleFilter) (t : SourceTag) : Bool :=
  match f, t with
  | ScheduleFilter.practice, SourceTag.practice => true
  | ScheduleFilter.meeting, SourceTag.meeting => true
  | ScheduleFilter.game, SourceTag.game => true
  | _, _ => false

/-- `filteredSchedules` of the player schedules page (lines 175-178):
`if (activeFilter === 'all') return true; return schedule.type === activeFilter`. -/
def playerFilteredSchedules (activeFilter : ScheduleFilter)
    (schedules : List Schedule) : List Schedule :=
  schedules.filter (fun s =>
    if activeFilter = ScheduleFilter.all then true
    else filterMatches activeFilter s.type)

/-- `isUpcoming` of the player schedules page (lines 212-216):
`new Date(timestamp) > now`, i.e. the parsed instant is strictly after the
reference instant. -/
def isUpcoming (k : Option String → Int) (now : Int)
    (timestamp : Option String) : Bool :=
  decide (now < k timestamp)

/-- Modelled from the spec: `partitionByTime(events, referenceInstant)` of
section 4.2 does not exist as a function in the code; the page classifies
each rendered event with `isUpcoming` (the predicate above, which is in the
source).  The partition is the lift of that predicate: `upcoming` keeps the
events satisfying `isUpcoming`, `past` the rest, both in original order. -/
def partitionByTime (k : Option String → Int) (now : Int)
    (events : List Schedule) : List Schedule × List Schedule :=
  (events.filter (fun s => isUpcoming k now s.start_time),
   events.filter (fun s => ! isUpcoming k now s.start_time))

/-! ### Coach schedules page (`src/app/coach/schedules/page.tsx`) -/

/-- The `CombinedSchedule` shape built by `fetchAllSchedules` (explicit
field picking, not a spread).  A practice item sets no `subtype`; a meeting
item sets `subtype := meeting.meeting_type`; a game item sets no `subtype`. -/
structure CombinedSchedule where
  id : Option String
  type : SourceTag
  title : Option String
  description : Option String
  start_time : Option String
  end_time : Option String
  location : Option String
  subtype : Option String
  originalData : RawRow
deriving DecidableEq, Repr

/-- Coach page, lines 173-184: the practice item pushed into
`combinedSchedules`. -/
def coachPracticeItem (p : RawRow) : CombinedSchedule :=
  { id := p.id, type := SourceTag.practice, title := p.title,
    description := p.description, start_time := p.start_time,
    end_time := p.end_time, location := p.location, subtype := none,
    originalData := p }

/-- Coach page, lines 187-200: the meeting item (`subtype: meeting.meeting_type`). -/
def coachMeetingItem (m : RawRow) : CombinedSchedule :=
  { id := m.id, type := SourceTag.meeting, title := m.title,
    description := m.description, start_time := m.start_time,
    end_time := m.end_time, location := m.location,
    subtype := m.meeting_type, originalData := m }

/-- Coach page, lines 203-216: the game item. -/
def coachGameItem (g : RawRow) : CombinedSchedule :=
  { id := g.id, type := SourceTag.game, title := g.title,
    description := g.description, start_time := g.start_time,
    end_time := g.end_time, location := g.location, subtype := none,
    originalData := g }

/-- Key for sorting combined schedules, as on the coach page (lines 221-223). -/
def combinedKey (k : Option String → Int) (s : CombinedSchedule) : Int :=
  k s.start_time

/-- The combine-and-sort step of the coach page (lines 169-223). -/
def coachCombineSchedules (k : Option String → Int)
    (practices meetings games : List RawRow) : List CombinedSchedule :=
  sortByKey (combinedKey k)
    (practices.map coachPracticeItem ++ meetings.map coachMeetingItem ++
      games.map coachGameItem)

/-- The combine-and-sort step of the coach page under the full timestamp
model (NaN-aware comparator), analogous to `playerLoadSchedulesJS`. -/
def coachCombineSchedulesJS (k : Option String → Option Int)
    (practices meetings games : List RawRow) : List CombinedSchedule :=
  sortByCmp (fun a b => jsCompare (k a.start_time) (k b.start_time))
    (practices.map coachPracticeItem ++ meetings.map coachMeetingItem ++
      games.map coachGameItem)

/-- `fetchAllSchedules` of the coach page (lines 136-231), given the three
query results: a failed practice query is thrown
(`if (practiceError) throw practiceError`), caught by the surrounding
`catch`, and surfaced as `setError('Failed to load schedules.')` — modelled
as `Except.error`.  A failed meeting or game query only warns and leaves
its `data` null, so the `if (meetings)` / `if (games)` guards make that
source contribute nothing. -/
def coachFetchAllSchedules (k : Option String → Int)
    (pres mres gres : Except String (List RawRow)) :
    Except String (List CombinedSchedule) :=
  match pres with
  | Except.error _ => Except.error "Failed to load schedules."
  | Except.ok practices =>
    let meetings :=
      match mres with
      | Except.ok l => l
      | Except.error _ => []
    let games :=
      match gres with
      | Except.ok l => l
      | Except.error _ => []
    Except.ok (coachCombineSchedules k practices meetings games)

/-- Lower-casing plus `String.includes`: `hay.toLowerCase().includes(needle)`
where `needle` is already lower-cased (coach page, lines 384-389). -/
def containsStr (hay needle : String) : Bool :=
  (List.range (hay.length + 1)).any (fun i => needle.isPrefixOf (hay.drop i))

/-- `filteredSchedules` of the coach page (lines 376-393): type filter, then
an optional search filter on title, description and location. -/
def coachFilteredSchedules (f : ScheduleFilter) (searchTerm : String)
    (schedules : List CombinedSchedule) : List CombinedSchedule :=
  schedules.filter (fun s =>
    if f ≠ ScheduleFilter.all ∧ filterMatches f s.type = false then false
    else if searchTerm ≠ "" then
      let searchLower := searchTerm.toLower
      containsStr (s.title.getD "").toLower searchLower ||
        containsStr (s.description.getD "").toLower searchLower ||
        containsStr (s.location.getD "").toLower searchLower
    else true)

/-! ### Query models

The database client is the external collaborator of section 6 of the
design: `queryRows(table, filters, orderBy, limit?)`.  We model a table as
a list of raw rows and a query as filtering it by the page's filter
expression and sorting by the parsed `start_time` ascending (the
`.order('start_time', { ascending: true })` clause); `.limit(n)` is
`List.take n` of that result. -/

/-- Key for sorting raw rows by `start_time`. -/
def rowKey (k : Option String → Int) (r : RawRow) : Int :=
  k r.start_time

/-- The game query of the player schedules page (lines 108-112) and of the
teammates page without its time filter: table `schedules`,
`.or('team1_id.eq.teamId,team2_id.eq.teamId')`, ordered by `start_time`
ascending. -/
def playerGameQuery (k : Option String → Int) (teamId : String)
    (schedulesTable : List RawRow) : List RawRow :=
  sortByKey (rowKey k)
    (schedulesTable.filter (fun r =>
      r.team1_id == some teamId || r.team2_id == some teamId))

/-- The game query of the coach schedules page (lines 158-162): table
`game_schedules`, `.eq('team_id', teamId)`, ordered by `start_time`
ascending. -/
def coachGameQuery (k : Option String → Int) (teamId : String)
    (gameSchedulesTable : List RawRow) : List RawRow :=
  sortByKey (rowKey k) (gameSchedulesTable.filter (fun r => r.team_id == some teamId))

/-- Follows the spec's words (section 4.2): "Game: rows where
`team1_id = teamId OR team2_id = teamId`, same time filter, same ordering"
— i.e. ordered by `start_time` ascending like the Practice and Meeting
queries, with no time filter in the `All` window mode. -/
def specGameQuery (k : Option String → Int) (teamId : String)
    (tbl : List RawRow) : List RawRow :=
  sortByKey (rowKey k)
    (tbl.filter (fun r => r.team1_id == some teamId || r.team2_id == some teamId))

/-- Follows the spec's words (section 4.2) for the `UpcomingOnly` window:
game rows where `team1_id = teamId OR team2_id = teamId` with
`start_time ≥ now`, ordered by `start_time` ascending — the untruncated
selection of which the teammates page's game query keeps the first 10
rows. -/
def specUpcomingGameQuery (k : Option String → Int) (now : Int)
    (teamId : String) (tbl : List RawRow) : List RawRow :=
  sortByKey (rowKey k)
    (tbl.filter (fun r =>
      (r.team1_id == some teamId || r.team2_id == some teamId) &&
        decide (now ≤ k r.start_time)))

/-! ### Player teammates page (`src/app/player/teammates/page.tsx`) -/

/-- `{...event, type: t}` (teammates page, lines 370-396): the spread plus
only the `type` tag — no `source_table`, and no `team_id` override for
games. -/
def tagTeammate (t : SourceTag) (r : RawRow) : Schedule :=
  { id := r.id, title := r.title, description := r.description,
    start_time := r.start_time, end_time := r.end_time, location := r.location,
    team_id := r.team_id, team1_id := r.team1_id, team2_id := r.team2_id,
    meeting_type := r.meeting_type, schedule_type := r.schedule_type,
    type := t, source_table := none }

/-- A source query of the teammates page (lines 339-364): the page filter
(`team_id` equality, or the two-team `or` for games) conjoined with
`.gte('start_time', currentDate)`, ordered by `start_time` ascending,
`.limit(10)`. -/
def teammatesQuery (k : Option String → Int) (now : Int)
    (flt : RawRow → Bool) (tbl : List RawRow) : List RawRow :=
  (sortByKey (rowKey k)
    (tbl.filter (fun r => flt r && decide (now ≤ k r.start_time)))).take 10

/-- The practice query of the teammates page. -/
def teammatesPracticeQuery (k : Option String → Int) (now : Int)
    (teamId : String) (tbl : List RawRow) : List RawRow :=
  teammatesQuery k now (fun r => r.team_id == some teamId) tbl

/-- The meeting query of the teammates page. -/
def teammatesMeetingQuery (k : Option String → Int) (now : Int)
    (teamId : String) (tbl : List RawRow) : List RawRow :=
  teammatesQuery k now (fun r => r.team_id == some teamId) tbl

/-- The game query of the teammates page (lines 356-364). -/
def teammatesGameQuery (k : Option String → Int) (now : Int)
    (teamId : String) (tbl : List RawRow) : List RawRow :=
  teammatesQuery k now
    (fun r => r.team1_id == some teamId || r.team2_id == some teamId) tbl

/-- `allEvents` of the teammates page (lines 366-396): the three fetched
row lists tagged and pushed in order practice, meeting, game. -/
def teammatesAllEvents (k : Option String → Int) (now : Int) (teamId : String)
    (ptab mtab gtab : List RawRow) : List Schedule :=
  (teammatesPracticeQuery k now teamId ptab).map (tagTeammate SourceTag.practice) ++
    (teammatesMeetingQuery k now teamId mtab).map (tagTeammate SourceTag.meeting) ++
    (teammatesGameQuery k now teamId gtab).map (tagTeammate SourceTag.game)

/-- `sortedEvents` of the teammates page (lines 398-401): sort all events
by start time and take the first 5 (`.slice(0, 5)`). -/
def teammatesUpcomingEvents (k : Option String → Int) (now : Int)
    (teamId : String) (ptab mtab gtab : List RawRow) : List Schedule :=
  (sortByKey (scheduleKey k) (teammatesAllEvents k now teamId ptab mtab gtab)).take 5

/-! ### Claim theorems -/

/-- Claim C7: if all three source queries fail, the player team-schedule
fetch returns an empty sequence rather than an error; the return value
(of type `List Schedule`) carries no failure to the caller. -/
theorem C7_all_sources_fail_returns_empty (k : Option String → Int)
    (teamId : String) (e1 e2 e3 : String) :
    playerLoadSchedules k teamId (Except.error e1) (Except.error e2)
      (Except.error e3) = [] := rfl

/-- Claim C1, counterexample: on the coach schedules page, a failure of the
Practice source query alone — Meeting and Game succeeding — fails the whole
fetch (`throw practiceError` is caught and surfaced as an error), instead
of returning the merged events of the two successful sources. -/
theorem C1_counterexample :
    coachFetchAllSchedules (fun _ => 0) (Except.error "boom")
      (Except.ok [emptyRow]) (Except.ok [emptyRow]) =
      Except.error "Failed to load schedules." := rfl

/-- Claim C1, amended: on the player schedules page, any single failed
source query only contributes an empty sequence and the fetch returns the
merged events of the two successful sources; on the coach schedules page
this holds for a failed Meeting or Game query, but a failed Practice query
fails the whole fetch with an error. -/
theorem C1_partial_failure_amended (k : Option String → Int) (teamId : String) :
    (∀ (m g : List RawRow) (e : String),
      playerLoadSchedules k teamId (Except.error e) (Except.ok m) (Except.ok g) =
        sortByKey (scheduleKey k) (m.map tagMeeting ++ g.map (tagGame teamId))) ∧
    (∀ (p g : List RawRow) (e : String),
      playerLoadSchedules k teamId (Except.ok p) (Except.error e) (Except.ok g) =
        sortByKey (scheduleKey k) (p.map tagPractice ++ g.map (tagGame teamId))) ∧
    (∀ (p m : List RawRow) (e : String),
      playerLoadSchedules k teamId (Except.ok p) (Except.ok m) (Except.error e) =
        sortByKey (scheduleKey k) (p.map tagPractice ++ m.map tagMeeting)) ∧
    (∀ (p g : List RawRow) (e : String),
      coachFetchAllSchedules k (Except.ok p) (Except.error e) (Except.ok g) =
        Except.ok (coachCombineSchedules k p [] g)) ∧
    (∀ (p m : List RawRow) (e : String),
      coachFetchAllSchedules k (Except.ok p) (Except.ok m) (Except.error e) =
        Except.ok (coachCombineSchedules k p m [])) ∧
    (∀ (m g : List RawRow) (e : String),
      coachFetchAllSchedules k (Except.error e) (Except.ok m) (Except.ok g) =
        Except.error "Failed to load schedules.") := by
  refine ⟨?_, ?_, ?_, ?_, ?_, ?_⟩ <;> intros <;>
    simp [playerLoadSchedules, coachFetchAllSchedules]

/-- A well-formed practice row. -/
def wellFormedRow : RawRow :=
  { emptyRow with
    id := some "r1",
    title := some "Morning drill",
    start_time := some "2025-01-01T10:00" }

/-- A second well-formed practice row. -/
def wellFormedRow2 : RawRow :=
  { emptyRow with
    id := some "r3",
    title := some "Evening drill",
    start_time := some "2025-01-01T18:00" }

/-- A row with an `id` but no `start_time` — malformed per the spec. -/
def malformedRow : RawRow :=
  { emptyRow with id := some "r2", title := some "No start time" }

/-- Claim C4, counterexample: a practice batch of three rows whose middle
row has no `start_time` is combined in full — the offending row is tagged
and included in the output (output length 3, not 2), and no error of any
kind is raised for it. -/
theorem C4_counterexample :
    (playerLoadSchedules (fun _ => 0) "T1"
        (Except.ok [wellFormedRow, malformedRow, wellFormedRow2])
        (Except.ok []) (Except.ok [])).length = 3 ∧
    tagPractice malformedRow ∈
      playerLoadSchedules (fun _ => 0) "T1"
        (Except.ok [wellFormedRow, malformedRow, wellFormedRow2])
        (Except.ok []) (Except.ok []) ∧
    malformedRow.start_time = none := by
  have h : playerLoadSchedules (fun _ => 0) "T1"
      (Except.ok [wellFormedRow, malformedRow, wellFormedRow2])
      (Except.ok []) (Except.ok []) =
      [tagPractice wellFormedRow, tagPractice malformedRow,
        tagPractice wellFormedRow2] := rfl
  refine ⟨by rw [h]; rfl, ?_, rfl⟩
  rw [h]
  exact List.mem_cons_of_mem _ (List.mem_cons_self _ _)

/-- Claim C4, amended: the player schedules page performs no row
validation — every row of each successful source is tagged and included in
the combined output verbatim, whether or not `id` or `start_time` is
present, and no error is raised; no `MalformedRowError` (or any
normalization-time exclusion) exists in the code. -/
theorem C4_no_row_excluded (k : Option String → Int) (teamId : String)
    (p m g : List RawRow) :
    (playerLoadSchedules k teamId (Except.ok p) (Except.ok m)
        (Except.ok g)).length = p.length + m.length + g.length ∧
    (∀ r ∈ p, tagPractice r ∈
      playerLoadSchedules k teamId (Except.ok p) (Except.ok m) (Except.ok g)) ∧
    (∀ r ∈ m, tagMeeting r ∈
      playerLoadSchedules k teamId (Except.ok p) (Except.ok m) (Except.ok g)) ∧
    (∀ r ∈ g, tagGame teamId r ∈
      playerLoadSchedules k teamId (Except.ok p) (Except.ok m) (Except.ok g)) := by
  have hperm : List.Perm
      (playerLoadSchedules k teamId (Except.ok p) (Except.ok m) (Except.ok g))
      (p.map tagPractice ++ m.map tagMeeting ++ g.map (tagGame teamId)) :=
    sortByKey_perm (scheduleKey k) _
  refine ⟨?_, ?_, ?_, ?_⟩
  · have h := hperm.length_eq
    simp only [List.length_append, List.length_map] at h
    omega
  · intro r hr
    exact hperm.mem_iff.mpr
      (List.mem_append_left _
        (List.mem_append_left _ (List.mem_map_of_mem tagPractice hr)))
  · intro r hr
    exact hperm.mem_iff.mpr
      (List.mem_append_left _
        (List.mem_append_right _ (List.mem_map_of_mem tagMeeting hr)))
  · intro r hr
    exact hperm.mem_iff.mpr
      (List.mem_append_right _ (List.mem_map_of_mem (tagGame teamId) hr))

/-- A practice row one day after `wellFormedRow`. -/
def rowJan2 : RawRow :=
  { emptyRow with
    id := some "r4",
    title := some "Later drill",
    start_time := some "2025-01-02T10:00" }

/-- A concrete parse assignment: the two well-formed timestamps parse to
1 and 2; everything else — in particular an absent `start_time` — is NaN
(`none`), as `new Date(...)` yields for it. -/
def parseJan : Option String → Option Int
  | some "2025-01-01T10:00" => some 1
  | some "2025-01-02T10:00" => some 2
  | _ => none

/-- Claim C2, counterexample: a practice batch [Jan 2, no `start_time`,
Jan 1] comes back in that original order — every comparison against the
NaN-keyed middle row returns 0 (ECMAScript coerces the NaN comparator
result), the outer rows are never compared with each other, and the sort
(here as in V8) leaves the input in place — so the fetched sequence has
parsed value 2 strictly before parsed value 1: not non-decreasing in the
parsed timestamps. -/
theorem C2_counterexample :
    playerLoadSchedulesJS parseJan "T1"
        (Except.ok [rowJan2, malformedRow, wellFormedRow])
        (Except.ok []) (Except.ok []) =
      [tagPractice rowJan2, tagPractice malformedRow,
        tagPractice wellFormedRow] ∧
    parseJan (tagPractice rowJan2).start_time = some 2 ∧
    parseJan (tagPractice wellFormedRow).start_time = some 1 ∧
    ¬ (playerLoadSchedulesJS parseJan "T1"
        (Except.ok [rowJan2, malformedRow, wellFormedRow])
        (Except.ok []) (Except.ok [])).Pairwise
      (fun a b => ∀ x y : Int, parseJan a.start_time = some x →
        parseJan b.start_time = some y → x ≤ y) := by
  have heq : playerLoadSchedulesJS parseJan "T1"
      (Except.ok [rowJan2, malformedRow, wellFormedRow])
      (Except.ok []) (Except.ok []) =
      [tagPractice rowJan2, tagPractice malformedRow,
        tagPractice wellFormedRow] := rfl
  refine ⟨heq, rfl, rfl, ?_⟩
  intro h
  rw [heq] at h
  have h1 := (List.pairwise_cons.mp h).1 (tagPractice wellFormedRow)
    (List.mem_cons_of_mem _ (List.mem_cons_self _ _))
  have h21 : (2 : Int) ≤ 1 := h1 2 1 rfl rfl
  omega

/-- Claim C2, amended: whenever every `start_time` parses to a number (the
comparator never returns NaN), the full sort model coincides with the
consistent-comparator stable sort, and the fetched sequence — the player
fetch and the coach combine step — is non-decreasing in the parsed
`start_time`.  With an unparseable or absent `start_time` in the input the
comparator is inconsistent and the order is implementation-defined (see
the counterexample). -/
theorem C2_sorted_when_all_parse (k : Option String → Int) (teamId : String)
    (pres mres gres : Except String (List RawRow))
    (practices meetings games : List RawRow) :
    playerLoadSchedulesJS (fun ts => some (k ts)) teamId pres mres gres =
      playerLoadSchedules k teamId pres mres gres ∧
    (playerLoadSchedules k teamId pres mres gres).Pairwise
      (fun a b => scheduleKey k a ≤ scheduleKey k b) ∧
    coachCombineSchedulesJS (fun ts => some (k ts)) practices meetings games =
      coachCombineSchedules k practices meetings games ∧
    (coachCombineSchedules k practices meetings games).Pairwise
      (fun a b => combinedKey k a ≤ combinedKey k b) := by
  refine ⟨?_, sortByKey_pairwise (scheduleKey k) _, ?_,
    sortByKey_pairwise (combinedKey k) _⟩
  · exact sortByCmp_some_eq_sortByKey (scheduleKey k) _
  · exact sortByCmp_some_eq_sortByKey (combinedKey k) _

/-- A game row in which `team1_id` is the fetched team but the generic
`team_id` field is absent. -/
def gameRowTeam1 : RawRow :=
  { emptyRow with
    id := some "g1",
    team1_id := some "T1",
    team2_id := some "T9",
    start_time := some "2025-01-01T10:00" }

/-- Claim C5, counterexample: the coach page's game query (table
`game_schedules`, filter `team_id = teamId`) does not select a game row
with `team1_id = teamId`, which the claimed filter
(`team1_id = teamId OR team2_id = teamId`) selects. -/
theorem C5_counterexample :
    coachGameQuery (fun _ => 0) "T1" [gameRowTeam1] = [] ∧
    specGameQuery (fun _ => 0) "T1" [gameRowTeam1] = [gameRowTeam1] :=
  ⟨rfl, rfl⟩

/-- Claim C5, amended: on the player schedules page the game query selects
exactly the rows with `team1_id = teamId` or `team2_id = teamId`, ordered
by parsed `start_time` ascending with no time filter (matching the other
two sources there); on the teammates page the game query equals the first
10 rows (the `.limit(10)` truncation) of exactly that selection restricted
by the page's shared `start_time ≥ now` filter and ordered ascending — so
it is sorted, has at most 10 rows, and every selected row satisfies both
filters; on the coach page the game query instead selects exactly the rows
of the `game_schedules` table with `team_id = teamId`. -/
theorem C5_game_query_amended (k : Option String → Int) (teamId : String)
    (now : Int) :
    (∀ tbl, playerGameQuery k teamId tbl = specGameQuery k teamId tbl) ∧
    (∀ tbl r, r ∈ playerGameQuery k teamId tbl ↔
      r ∈ tbl ∧ (r.team1_id = some teamId ∨ r.team2_id = some teamId)) ∧
    (∀ tbl, (playerGameQuery k teamId tbl).Pairwise
      (fun a b => rowKey k a ≤ rowKey k b)) ∧
    (∀ tbl, teammatesGameQuery k now teamId tbl =
      (specUpcomingGameQuery k now teamId tbl).take 10) ∧
    (∀ tbl r, r ∈ specUpcomingGameQuery k now teamId tbl ↔
      r ∈ tbl ∧ (r.team1_id = some teamId ∨ r.team2_id = some teamId) ∧
        now ≤ k r.start_time) ∧
    (∀ tbl, (teammatesGameQuery k now teamId tbl).Pairwise
      (fun a b => rowKey k a ≤ rowKey k b)) ∧
    (∀ tbl, (teammatesGameQuery k now teamId tbl).length ≤ 10) ∧
    (∀ tbl r, r ∈ teammatesGameQuery k now teamId tbl →
      r ∈ tbl ∧ (r.team1_id = some teamId ∨ r.team2_id = some teamId) ∧
        now ≤ k r.start_time) ∧
    (∀ tbl r, r ∈ coachGameQuery k teamId tbl ↔
      r ∈ tbl ∧ r.team_id = some teamId) := by
  refine ⟨fun tbl => rfl, ?_, ?_, fun tbl => rfl, ?_, ?_,
    fun tbl => List.length_take_le _ _, ?_, ?_⟩
  · intro tbl r
    simp only [playerGameQuery]
    rw [(sortByKey_perm (rowKey k) _).mem_iff, List.mem_filter]
    simp
  · intro tbl
    exact sortByKey_pairwise (rowKey k) _
  · intro tbl r
    simp only [specUpcomingGameQuery]
    rw [(sortByKey_perm (rowKey k) _).mem_iff, List.mem_filter]
    simp [and_assoc]
  · intro tbl
    simp only [teammatesGameQuery, teammatesQuery]
    exact List.Pairwise.sublist (List.take_sublist 10 _)
      (sortByKey_pairwise (rowKey k) _)
  · intro tbl r hr
    simp only [teammatesGameQuery, teammatesQuery] at hr
    have hmem := List.Sublist.subset (List.take_sublist 10 _) hr
    have hf := (sortByKey_perm (rowKey k) _).mem_iff.mp hmem
    rw [List.mem_filter] at hf
    have h2 := hf.2
    simp only [Bool.and_eq_true, Bool.or_eq_true, beq_iff_eq,
      decide_eq_true_eq] at h2
    exact ⟨hf.1, h2.1, h2.2⟩
  · intro tbl r
    simp only [coachGameQuery]
    rw [(sortByKey_perm (rowKey k) _).mem_iff, List.mem_filter]
    simp

/-- Claim C6, counterexample: the game tagging of the player schedules page
synthesizes a field — it sets `team_id` to the fetched team's id even when
the raw `schedules` row carries no `team_id` at all. -/
theorem C6_counterexample :
    (tagGame "T1" emptyRow).team_id = some "T1" ∧ emptyRow.team_id = none :=
  ⟨rfl, rfl⟩

/-- Claim C6, amended: practice and meeting tagging copy every source field
verbatim, adding only the `type` and `source_table` tags; game tagging does
the same for every field except `team_id`, which it synthesizes as the
fetched team's id regardless of the raw row. -/
theorem C6_fields_copied_verbatim (r : RawRow) (teamId : String) :
    ((tagPractice r).id = r.id ∧ (tagPractice r).title = r.title ∧
      (tagPractice r).description = r.description ∧
      (tagPractice r).start_time = r.start_time ∧
      (tagPractice r).end_time = r.end_time ∧
      (tagPractice r).location = r.location ∧
      (tagPractice r).team_id = r.team_id ∧
      (tagPractice r).team1_id = r.team1_id ∧
      (tagPractice r).team2_id = r.team2_id ∧
      (tagPractice r).meeting_type = r.meeting_type ∧
      (tagPractice r).schedule_type = r.schedule_type) ∧
    ((tagMeeting r).id = r.id ∧ (tagMeeting r).title = r.title ∧
      (tagMeeting r).description = r.description ∧
      (tagMeeting r).start_time = r.start_time ∧
      (tagMeeting r).end_time = r.end_time ∧
      (tagMeeting r).location = r.location ∧
      (tagMeeting r).team_id = r.team_id ∧
      (tagMeeting r).team1_id = r.team1_id ∧
      (tagMeeting r).team2_id = r.team2_id ∧
      (tagMeeting r).meeting_type = r.meeting_type ∧
      (tagMeeting r).schedule_type = r.schedule_type) ∧
    ((tagGame teamId r).id = r.id ∧ (tagGame teamId r).title = r.title ∧
      (tagGame teamId r).description = r.description ∧
      (tagGame teamId r).start_time = r.start_time ∧
      (tagGame teamId r).end_time = r.end_time ∧
      (tagGame teamId r).location = r.location ∧
      (tagGame teamId r).team_id = some teamId ∧
      (tagGame teamId r).team1_id = r.team1_id ∧
      (tagGame teamId r).team2_id = r.team2_id ∧
      (tagGame teamId r).meeting_type = r.meeting_type ∧
      (tagGame teamId r).schedule_type = r.schedule_type) := by
  refine ⟨⟨rfl, rfl, rfl, rfl, rfl, rfl, rfl, rfl, rfl, rfl, rfl⟩,
    ⟨rfl, rfl, rfl, rfl, rfl, rfl, rfl, rfl, rfl, rfl, rfl⟩,
    ⟨rfl, rfl, rfl, rfl, rfl, rfl, rfl, rfl, rfl, rfl, rfl⟩⟩

theorem filter_idem (p : α → Bool) (l : List α) :
    (l.filter p).filter p = l.filter p := by
  induction l with
  | nil => rfl
  | cons x xs ih =>
    by_cases hp : p x = true
    · simp [List.filter_cons, hp, ih]
    · simp [List.filter_cons, hp, ih]

/-- Claim C8: partitioning a sequence of events at a reference instant
yields `upcoming` — exactly the events with parsed `start_time` strictly
greater than the reference — and `past` — exactly those less than or equal
to it; both are order-preserving subsequences, and every input event lands
in exactly one side (counts add up, so no duplication and no omission). -/
theorem C8_partition_exhaustive_disjoint (k : Option String → Int)
    (now : Int) (events : List Schedule) :
    (partitionByTime k now events).1.Sublist events ∧
    (partitionByTime k now events).2.Sublist events ∧
    (∀ s, s ∈ (partitionByTime k now events).1 ↔
      s ∈ events ∧ now < scheduleKey k s) ∧
    (∀ s, s ∈ (partitionByTime k now events).2 ↔
      s ∈ events ∧ scheduleKey k s ≤ now) ∧
    (∀ s, (partitionByTime k now events).1.count s +
      (partitionByTime k now events).2.count s = events.count s) := by
  refine ⟨List.filter_sublist _, List.filter_sublist _, ?_, ?_, ?_⟩
  · intro s
    simp only [partitionByTime]
    rw [List.mem_filter]
    simp [isUpcoming, scheduleKey]
  · intro s
    simp only [partitionByTime]
    rw [List.mem_filter]
    simp [isUpcoming, scheduleKey]
  · intro s
    have hperm := List.filter_append_perm
      (fun s => isUpcoming k now s.start_time) events
    have hc := hperm.count_eq s
    rw [List.count_append] at hc
    exact hc

/-- Claim C9: the type filter is a pure total function returning an
order-preserving subsequence; a non-`all` filter keeps only events of the
matching type, the `all` filter keeps everything, and filtering twice with
the same arguments equals filtering once — on the player page, and on the
coach page (whose filter, with an empty search term, reduces to the same
type filter) for any search term. -/
theorem C9_filter_by_type_idempotent (f : ScheduleFilter) (q : String)
    (l : List Schedule) (cl : List CombinedSchedule) :
    (playerFilteredSchedules f l).Sublist l ∧
    (∀ s ∈ playerFilteredSchedules f l,
      f = ScheduleFilter.all ∨ filterMatches f s.type = true) ∧
    playerFilteredSchedules ScheduleFilter.all l = l ∧
    playerFilteredSchedules f (playerFilteredSchedules f l) =
      playerFilteredSchedules f l ∧
    coachFilteredSchedules f "" cl =
      cl.filter (fun s =>
        if f = ScheduleFilter.all then true else filterMatches f s.type) ∧
    coachFilteredSchedules f q (coachFilteredSchedules f q cl) =
      coachFilteredSchedules f q cl := by
  refine ⟨List.filter_sublist _, ?_, ?_, filter_idem _ l, ?_, filter_idem _ cl⟩
  · intro s hs
    have hmem := (List.mem_filter.mp hs).2
    by_cases hf : f = ScheduleFilter.all
    · exact Or.inl hf
    · right
      simpa [hf] using hmem
  · simp [playerFilteredSchedules]
  · apply List.filter_congr
    intro s _
    by_cases hf : f = ScheduleFilter.all
    · simp [hf]
    · by_cases hm : filterMatches f s.type = true
      · simp [hf, hm]
      · simp [hf, hm]

/-- Claim C10: on the player dashboard (teammates page), each source query
is limited to 10 rows; the merged, ascending-sorted event list is truncated
to its first 5 entries, so the displayed upcoming-events list has length at
most 5, is sorted, and consists of the earliest events among all fetched
ones (every displayed event starts no later than every undisplayed fetched
event). -/
theorem C10_dashboard_five_earliest (k : Option String → Int) (now : Int)
    (teamId : String) (ptab mtab gtab : List RawRow) :
    (teammatesPracticeQuery k now teamId ptab).length ≤ 10 ∧
    (teammatesMeetingQuery k now teamId mtab).length ≤ 10 ∧
    (teammatesGameQuery k now teamId gtab).length ≤ 10 ∧
    (teammatesUpcomingEvents k now teamId ptab mtab gtab).length ≤ 5 ∧
    (teammatesUpcomingEvents k now teamId ptab mtab gtab).Pairwise
      (fun a b => scheduleKey k a ≤ scheduleKey k b) ∧
    teammatesUpcomingEvents k now teamId ptab mtab gtab ++
        (sortByKey (scheduleKey k)
          (teammatesAllEvents k now teamId ptab mtab gtab)).drop 5 =
      sortByKey (scheduleKey k)
        (teammatesAllEvents k now teamId ptab mtab gtab) ∧
    List.Perm
      (sortByKey (scheduleKey k) (teammatesAllEvents k now teamId ptab mtab gtab))
      (teammatesAllEvents k now teamId ptab mtab gtab) ∧
    ∀ x ∈ teammatesUpcomingEvents k now teamId ptab mtab gtab,
      ∀ y ∈ (sortByKey (scheduleKey k)
          (teammatesAllEvents k now teamId ptab mtab gtab)).drop 5,
        scheduleKey k x ≤ scheduleKey k y := by
  refine ⟨List.length_take_le _ _, List.length_take_le _ _,
    List.length_take_le _ _, List.length_take_le _ _, ?_,
    List.take_append_drop 5 _, sortByKey_perm _ _, ?_⟩
  · exact List.Pairwise.sublist (List.take_sublist 5 _)
      (sortByKey_pairwise (scheduleKey k) _)
  · intro x hx y hy
    have hp := sortByKey_pairwise (scheduleKey k)
      (teammatesAllEvents k now teamId ptab mtab gtab)
    rw [← List.take_append_drop 5 (sortByKey (scheduleKey k)
      (teammatesAllEvents k now teamId ptab mtab gtab))] at hp
    rcases List.pairwise_append.mp hp with ⟨_, _, hrel⟩
    exact hrel x hx y hy
